import Mathlib

/-!
Shallow embedding of the asynchronous job engine of `refua_studio`:
the SQLite-backed `JobStore` (`src/refua_studio/storage.py`) and the
execution wrapper of `BackgroundRunner` (`src/refua_studio/runner.py`).

Modelling choices, each traceable to the source:
  - a store state is the list of rows of the `jobs` table plus a counter
  that models `uuid.uuid4()` as a fresh-identifier generator (`job_id`
  is the table's PRIMARY KEY, so ids are unique and fresh);
  - timestamps (`_utc_now_iso`) are abstracted as `Nat` arguments `now`;
  - JSON payloads (`request_json`, `result_json`) are abstracted as the
  `String` they serialise to; `json.dumps` of a non-`None` value is never
  `NULL`, so `result_json` is `Option String` that is `some` exactly when
  a result was passed;
  - a SQL `UPDATE ... WHERE cond` maps every matching row through the SET
  clause and leaves the others unchanged; `cursor.rowcount > 0` is
  `there exists a matching row`;
  - `ORDER BY updated_at DESC` is insertion sort by descending
  `updated_at` (SQLite fixes no tie order; the claims proved here only
  use sortedness and membership, which hold for any such ordering).
-/

/-- Job status: the five values the store writes into the `status` column. -/
inductive Status where
  | queued
  | running
  | completed
  | failed
  | cancelled
deriving DecidableEq, Repr

/-- Terminal statuses, `{completed, failed, cancelled}`. -/
def Status.isTerminal : Status → Bool
  | .completed => true
  | .failed => true
  | .cancelled => true
  | _ => false

/-- One row of the `jobs` table (storage.py, `_init_db`). -/
structure Job where
  jobId : Nat
  kind : String
  status : Status
  cancelRequested : Bool
  createdAt : Nat
  updatedAt : Nat
  request : String
  result : Option String
  error : Option String
deriving DecidableEq, Repr

/-- The store state: the rows plus the fresh-id counter modelling `uuid4`. -/
structure JobStore where
  jobs : List Job
  nextId : Nat
deriving DecidableEq, Repr

/-- The store of a freshly created database: no rows. -/
def emptyStore : JobStore := { jobs := [], nextId := 0 }

/-- The SET clause of `JobStore._set_status`: writes `status`, `updated_at`,
`result_json`, `error_text` always, and `cancel_requested` only when the
`cancel_requested` argument is not `None` (storage.py lines 176-197). -/
def setStatusRow (status : Status) (result error : Option String)
    (cancelRequested : Option Bool) (now : Nat) (j : Job) : Job :=
  { j with
    status := status
    updatedAt := now
    result := result
    error := error
    cancelRequested := cancelRequested.getD j.cancelRequested }

/-- The WHERE clause of `JobStore._set_status`: `job_id = ?` and, when
`allow_from` is truthy (non-empty), `status IN allow_from`
(storage.py lines 198-216). -/
def rowMatches (jobId : Nat) (allowFrom : List Status) (j : Job) : Prop :=
  j.jobId = jobId ∧ (allowFrom = [] ∨ j.status ∈ allowFrom)

instance (jobId : Nat) (allowFrom : List Status) (j : Job) :
    Decidable (rowMatches jobId allowFrom j) := by
  unfold rowMatches; infer_instance

set_option linter.unusedVariables false in
/-- `JobStore._set_status`: one conditional UPDATE; returns
`cursor.rowcount > 0` and the new table (storage.py lines 166-218). -/
def setStatus (s : JobStore) (jobId : Nat) (status : Status)
    (result error : Option String) (cancelRequested : Option Bool)
    (allowFrom : List Status) (now : Nat) : Bool × JobStore :=
  (decide (∃ j ∈ s.jobs, rowMatches jobId allowFrom j),
   { s with
     jobs := s.jobs.map fun j =>
       if rowMatches jobId allowFrom j then
         setStatusRow status result error cancelRequested now j
       else j })

/-- `JobStore.set_running` (storage.py lines 98-103): status `running`,
`allow_from=("queued",)`; result, error default to `None`,
`cancel_requested` defaults to `None` (left unchanged). -/
def set_running (s : JobStore) (jobId : Nat) (now : Nat) : Bool × JobStore :=
  setStatus s jobId .running none none none [.queued] now

/-- `JobStore.set_completed` (storage.py lines 105-113): status `completed`,
result set, error `None`, `cancel_requested=False`, `allow_from=("running",)`. -/
def set_completed (s : JobStore) (jobId : Nat) (result : String) (now : Nat) :
    Bool × JobStore :=
  setStatus s jobId .completed (some result) none (some false) [.running] now

/-- `JobStore.set_failed` (storage.py lines 115-123): status `failed`,
result `None`, error set, `cancel_requested=False`, `allow_from=("running",)`. -/
def set_failed (s : JobStore) (jobId : Nat) (error : String) (now : Nat) :
    Bool × JobStore :=
  setStatus s jobId .failed none (some error) (some false) [.running] now

/-- `JobStore.set_cancelled` (storage.py lines 125-133): status `cancelled`,
result `None`, error := reason, `cancel_requested=True`,
`allow_from=("queued", "running")`. -/
def set_cancelled (s : JobStore) (jobId : Nat) (reason : String) (now : Nat) :
    Bool × JobStore :=
  setStatus s jobId .cancelled none (some reason) (some true) [.queued, .running] now

/-- The SET clause of `JobStore.request_cancel`: `cancel_requested = 1`,
`updated_at = now`, `error_text = COALESCE(error_text, reason)`
(storage.py lines 143-152). -/
def requestCancelRow (reason : String) (now : Nat) (j : Job) : Job :=
  { j with
    cancelRequested := true
    updatedAt := now
    error := some (j.error.getD reason) }

/-- `JobStore.request_cancel` (storage.py lines 135-154): conditional UPDATE
`WHERE job_id = ? AND status = 'running'`; returns `rowcount > 0`. -/
def request_cancel (s : JobStore) (jobId : Nat) (reason : String) (now : Nat) :
    Bool × JobStore :=
  (decide (∃ j ∈ s.jobs, j.jobId = jobId ∧ j.status = .running),
   { s with
     jobs := s.jobs.map fun j =>
       if j.jobId = jobId ∧ j.status = .running then requestCancelRow reason now j
       else j })

/-- `JobStore.get_job` (storage.py lines 220-233): fetch the row with the
given id, `none` when absent. -/
def get_job (s : JobStore) (jobId : Nat) : Option Job :=
  s.jobs.find? fun j => decide (j.jobId = jobId)

/-- `JobStore.is_cancel_requested` (storage.py lines 156-164): the row's
`cancel_requested`, and `false` when the row is absent. -/
def is_cancel_requested (s : JobStore) (jobId : Nat) : Bool :=
  match get_job s jobId with
  | none => false
  | some j => j.cancelRequested

/-- `JobStore.create_job` (storage.py lines 69-96): INSERT a fresh row with
status `queued`, `cancel_requested=0`, `created_at=updated_at=now`, the
request stored verbatim, `result_json=error_text=NULL`; returns the record.
`uuid.uuid4()` is modelled by the fresh counter `nextId`. -/
def create_job (s : JobStore) (kind request : String) (now : Nat) :
    Job × JobStore :=
  let job : Job :=
    { jobId := s.nextId
      kind := kind
      status := .queued
      cancelRequested := false
      createdAt := now
      updatedAt := now
      request := request
      result := none
      error := none }
  (job, { jobs := s.jobs ++ [job], nextId := s.nextId + 1 })

/-- Ordering used by `ORDER BY updated_at DESC`: newest first. -/
def updatedDesc (a b : Job) : Prop := b.updatedAt ≤ a.updatedAt

instance : DecidableRel updatedDesc := fun a b => Nat.decLe b.updatedAt a.updatedAt

instance : IsTotal Job updatedDesc :=
  ⟨fun a b => (Nat.le_total b.updatedAt a.updatedAt).imp id id⟩

instance : IsTrans Job updatedDesc :=
  ⟨fun _ _ _ hab hbc => Nat.le_trans hbc hab⟩

/-- `JobStore.list_jobs` (storage.py lines 235-267):
`safe_limit = min(max(limit, 1), 1000)`; a truthy (non-empty) `statuses`
filters by `status IN statuses`; rows come back ordered by `updated_at`
descending, at most `safe_limit` of them. -/
def list_jobs (s : JobStore) (limit : Int) (statuses : Option (List Status)) :
    List Job :=
  let safeLimit : Int := min (max limit 1) 1000
  let filtered : List Job :=
    match statuses with
    | none => s.jobs
    | some l => if l = [] then s.jobs else s.jobs.filter fun j => decide (j.status ∈ l)
  (List.insertionSort updatedDesc filtered).take safeLimit.toNat

/-- `JobStore.clear_jobs` (storage.py lines 269-279): raises `ValueError`
on an empty status tuple, else DELETEs rows `WHERE status IN statuses` and
returns `cursor.rowcount` (the number of deleted rows). -/
def clear_jobs (s : JobStore) (statuses : List Status) :
    Except String (Nat × JobStore) :=
  if statuses = [] then .error "statuses must not be empty"
  else
    .ok ((s.jobs.filter fun j => decide (j.status ∈ statuses)).length,
      { s with jobs := s.jobs.filter fun j => decide (j.status ∉ statuses) })

/-- One mutating store call, with its arguments (timestamps included). -/
inductive Op where
  | create (kind request : String) (now : Nat)
  | setRunning (jobId : Nat) (now : Nat)
  | setCompleted (jobId : Nat) (result : String) (now : Nat)
  | setFailed (jobId : Nat) (error : String) (now : Nat)
  | setCancelled (jobId : Nat) (reason : String) (now : Nat)
  | requestCancel (jobId : Nat) (reason : String) (now : Nat)
  | clear (statuses : List Status)
deriving DecidableEq, Repr

/-- The five row-updating operations named by the stickiness claim
(`set_running`, `set_completed`, `set_failed`, `set_cancelled`,
`request_cancel`). -/
def Op.isStatusOp : Op → Bool
  | .create _ _ _ => false
  | .clear _ => false
  | _ => true

/-- Apply one store operation to a state. A `clear` of an empty status set
raises in the source before touching the table, so it leaves the state as
it was. -/
def applyOp (s : JobStore) : Op → JobStore
  | .create kind request now => (create_job s kind request now).2
  | .setRunning jobId now => (set_running s jobId now).2
  | .setCompleted jobId result now => (set_completed s jobId result now).2
  | .setFailed jobId error now => (set_failed s jobId error now).2
  | .setCancelled jobId reason now => (set_cancelled s jobId reason now).2
  | .requestCancel jobId reason now => (request_cancel s jobId reason now).2
  | .clear statuses =>
    match clear_jobs s statuses with
    | .ok (_, next) => next
    | .error _ => s

/-- The state after running a sequence of store operations on a fresh store. -/
def run (ops : List Op) : JobStore := ops.foldl applyOp emptyStore

/-- Outcome of invoking the work unit `fn` (runner.py lines 45-52): either a
normal return, a raised `JobCancelledError` (the cancellation signal), or any
other exception. -/
inductive WorkOutcome where
  | returned (result : String)
  | raisedCancelled (msg : String)
  | raisedError (msg : String)
deriving DecidableEq, Repr

/-- `BackgroundRunner.submit._wrapped` (runner.py lines 38-56). The two
reads of `cancel_event.is_set()` (lines 42 and 53) are the flags
`cancelBefore` and `cancelAfter`; the work unit's behaviour is its
`WorkOutcome`. The wrapper is a total function into `JobStore`: every
outcome of the work unit becomes a store transition and no exception
escapes it. -/
def wrapped (s : JobStore) (jobId : Nat) (cancelBefore cancelAfter : Bool)
    (outcome : WorkOutcome) (nRun nEnd : Nat) : JobStore :=
  let r := set_running s jobId nRun
  if !r.1 then r.2
  else if cancelBefore || is_cancel_requested r.2 jobId then
    (set_cancelled r.2 jobId "Cancelled by user before execution." nEnd).2
  else
    match outcome with
    | .raisedCancelled msg => (set_cancelled r.2 jobId msg nEnd).2
    | .raisedError msg => (set_failed r.2 jobId msg nEnd).2
    | .returned result =>
      if cancelAfter || is_cancel_requested r.2 jobId then
        (set_cancelled r.2 jobId "Cancelled by user during execution." nEnd).2
      else (set_completed r.2 jobId result nEnd).2

/-! Helper lemmas about conditional updates that match no row. -/

lemma setStatus_map_id (l : List Job) (jobId : Nat) (st : Status)
    (res err : Option String) (cr : Option Bool) (af : List Status) (now : Nat)
    (h : ∀ j ∈ l, ¬ rowMatches jobId af j) :
    (l.map fun j =>
      if rowMatches jobId af j then setStatusRow st res err cr now j else j) = l := by
  induction l with
  | nil => rfl
  | cons x xs ih =>
    simp only [List.map_cons, List.cons.injEq]
    exact ⟨if_neg (h x (List.mem_cons_self x xs)),
      ih fun a ha => h a (List.mem_cons_of_mem x ha)⟩

lemma setStatus_no_match (s : JobStore) (jobId : Nat) (st : Status)
    (res err : Option String) (cr : Option Bool) (af : List Status) (now : Nat)
    (h : ∀ j ∈ s.jobs, ¬ rowMatches jobId af j) :
    setStatus s jobId st res err cr af now = (false, s) := by
  have hne : ¬ ∃ j ∈ s.jobs, rowMatches jobId af j :=
    fun ⟨j, hj, hm⟩ => h j hj hm
  unfold setStatus
  rw [decide_eq_false hne, setStatus_map_id _ _ _ _ _ _ _ _ h]

lemma requestCancel_map_id (l : List Job) (jobId : Nat) (reason : String) (now : Nat)
    (h : ∀ j ∈ l, ¬ (j.jobId = jobId ∧ j.status = .running)) :
    (l.map fun j =>
      if j.jobId = jobId ∧ j.status = .running then requestCancelRow reason now j
      else j) = l := by
  induction l with
  | nil => rfl
  | cons x xs ih =>
    simp only [List.map_cons, List.cons.injEq]
    exact ⟨if_neg (h x (List.mem_cons_self x xs)),
      ih fun a ha => h a (List.mem_cons_of_mem x ha)⟩

lemma request_cancel_no_match (s : JobStore) (jobId : Nat) (reason : String) (now : Nat)
    (h : ∀ j ∈ s.jobs, ¬ (j.jobId = jobId ∧ j.status = .running)) :
    request_cancel s jobId reason now = (false, s) := by
  have hne : ¬ ∃ j ∈ s.jobs, j.jobId = jobId ∧ j.status = .running :=
    fun ⟨j, hj, hm⟩ => h j hj hm
  unfold request_cancel
  rw [decide_eq_false hne, requestCancel_map_id _ _ _ _ h]

/-- C6: `create_job` always succeeds; the created record has status
`queued`, `cancel_requested = false`, `result = null`, `error = null`, the
request stored verbatim (and the caller's kind), and the record is the row
appended to the table. -/
theorem create_job_spec (s : JobStore) (kind request : String) (now : Nat) :
    (create_job s kind request now).1.status = Status.queued ∧
    (create_job s kind request now).1.cancelRequested = false ∧
    (create_job s kind request now).1.result = none ∧
    (create_job s kind request now).1.error = none ∧
    (create_job s kind request now).1.request = request ∧
    (create_job s kind request now).1.kind = kind ∧
    (create_job s kind request now).2.jobs
      = s.jobs ++ [(create_job s kind request now).1] :=
  ⟨rfl, rfl, rfl, rfl, rfl, rfl, rfl⟩

theorem create_job_spec_witness :
    (create_job emptyStore "campaign_run" "req" 7).1.status = Status.queued ∧
    (create_job emptyStore "campaign_run" "req" 7).1.cancelRequested = false ∧
    (create_job emptyStore "campaign_run" "req" 7).1.result = none ∧
    (create_job emptyStore "campaign_run" "req" 7).1.error = none ∧
    (create_job emptyStore "campaign_run" "req" 7).1.request = "req" ∧
    (create_job emptyStore "campaign_run" "req" 7).1.kind = "campaign_run" ∧
    (create_job emptyStore "campaign_run" "req" 7).2.jobs
      = emptyStore.jobs ++ [(create_job emptyStore "campaign_run" "req" 7).1] :=
  create_job_spec emptyStore "campaign_run" "req" 7

/-- C7: `set_running` returns `true` and transitions a row to `running`
exactly when that row currently has status `queued`; consequently a second
call on the same job returns `false` and changes nothing. -/
theorem set_running_spec (s : JobStore) (jobId n1 n2 : Nat) :
    ((set_running s jobId n1).1 = true ↔
      ∃ j ∈ s.jobs, j.jobId = jobId ∧ j.status = Status.queued) ∧
    ((set_running s jobId n1).2.jobs = s.jobs.map fun j =>
      if rowMatches jobId [Status.queued] j then
        setStatusRow Status.running none none none n1 j
      else j) ∧
    ((set_running s jobId n1).1 = true →
      (set_running (set_running s jobId n1).2 jobId n2).1 = false ∧
      (set_running (set_running s jobId n1).2 jobId n2).2
        = (set_running s jobId n1).2) := by
  refine ⟨by simp [set_running, setStatus, rowMatches], rfl, ?_⟩
  intro _
  have h : ∀ j2 ∈ (set_running s jobId n1).2.jobs,
      ¬ rowMatches jobId [Status.queued] j2 := by
    intro j2 hj2
    simp only [set_running, setStatus] at hj2
    rcases List.mem_map.1 hj2 with ⟨j0, _hj0, rfl⟩
    by_cases hm : rowMatches jobId [Status.queued] j0
    · rw [if_pos hm]
      rintro ⟨-, habs | hmem⟩
      · simp at habs
      · simp [setStatusRow] at hmem
    · rw [if_neg hm]
      exact hm
  have hnm : set_running (set_running s jobId n1).2 jobId n2
      = (false, (set_running s jobId n1).2) :=
    setStatus_no_match (set_running s jobId n1).2 jobId Status.running
      none none none [Status.queued] n2 h
  rw [hnm]
  exact ⟨rfl, rfl⟩

/-- C2: once a job's row is terminal (`completed`, `failed` or `cancelled`),
each of the four transition operations returns `false` and leaves the store
(hence every field of the row) unchanged. -/
theorem terminal_absorbing (s : JobStore) (jobId : Nat) (res err reason : String)
    (n1 n2 n3 n4 : Nat)
    (hterm : ∀ j ∈ s.jobs, j.jobId = jobId → j.status.isTerminal = true) :
    set_running s jobId n1 = (false, s) ∧
    set_completed s jobId res n2 = (false, s) ∧
    set_failed s jobId err n3 = (false, s) ∧
    set_cancelled s jobId reason n4 = (false, s) := by
  have hmk : ∀ (af : List Status), (∀ st ∈ af, st.isTerminal = false) → af ≠ [] →
      ∀ j ∈ s.jobs, ¬ rowMatches jobId af j := by
    intro af haf hne j hj hm
    rcases hm with ⟨hid, h0 | h1⟩
    · exact hne h0
    · have h2 := haf _ h1
      rw [hterm j hj hid] at h2
      exact absurd h2 (by decide)
  exact ⟨setStatus_no_match s jobId Status.running none none none
      [Status.queued] n1 (hmk _ (by decide) (by decide)),
    setStatus_no_match s jobId Status.completed (some res) none (some false)
      [Status.running] n2 (hmk _ (by decide) (by decide)),
    setStatus_no_match s jobId Status.failed none (some err) (some false)
      [Status.running] n3 (hmk _ (by decide) (by decide)),
    setStatus_no_match s jobId Status.cancelled none (some reason) (some true)
      [Status.queued, Status.running] n4 (hmk _ (by decide) (by decide))⟩

/-- A queued row, as `create_job` leaves it, used to instantiate theorems. -/
def jobQueued : Job :=
  { jobId := 0, kind := "k", status := Status.queued, cancelRequested := false,
    createdAt := 0, updatedAt := 0, request := "r", result := none, error := none }

/-- A running row with no error text and no cancellation request. -/
def jobRunning : Job :=
  { jobId := 0, kind := "k", status := Status.running, cancelRequested := false,
    createdAt := 0, updatedAt := 1, request := "r", result := none, error := none }

/-- A completed row carrying a result payload. -/
def jobDone : Job :=
  { jobId := 0, kind := "k", status := Status.completed, cancelRequested := false,
    createdAt := 0, updatedAt := 2, request := "r", result := some "res",
    error := none }

/-- A one-row store whose job is queued. -/
def storeQueued : JobStore := { jobs := [jobQueued], nextId := 1 }

/-- A one-row store whose job is running. -/
def storeRunning : JobStore := { jobs := [jobRunning], nextId := 1 }

/-- A one-row store whose job is completed. -/
def storeDone : JobStore := { jobs := [jobDone], nextId := 1 }

theorem set_running_spec_witness :
    (((set_running storeQueued 0 3).1 = true ↔
      ∃ j ∈ storeQueued.jobs, j.jobId = 0 ∧ j.status = Status.queued) ∧
    ((set_running storeQueued 0 3).2.jobs = storeQueued.jobs.map fun j =>
      if rowMatches 0 [Status.queued] j then
        setStatusRow Status.running none none none 3 j
      else j) ∧
    ((set_running storeQueued 0 3).1 = true →
      (set_running (set_running storeQueued 0 3).2 0 4).1 = false ∧
      (set_running (set_running storeQueued 0 3).2 0 4).2
        = (set_running storeQueued 0 3).2)) :=
  set_running_spec storeQueued 0 3 4

theorem terminal_absorbing_witness :
    (∀ j ∈ storeDone.jobs, j.jobId = 0 → j.status.isTerminal = true) ∧
    (set_running storeDone 0 5 = (false, storeDone) ∧
     set_completed storeDone 0 "x" 6 = (false, storeDone) ∧
     set_failed storeDone 0 "e" 7 = (false, storeDone) ∧
     set_cancelled storeDone 0 "c" 8 = (false, storeDone)) :=
  ⟨by decide, terminal_absorbing storeDone 0 "x" "e" "c" 5 6 7 8 (by decide)⟩

/-- C10: on a job id with no row in the store, every transition operation
and `request_cancel` return `false` and leave the store unchanged, and
`is_cancel_requested` returns `false` instead of signalling a missing row. -/
theorem missing_job_noop (s : JobStore) (jobId : Nat) (res err reason reason2 : String)
    (n1 n2 n3 n4 n5 : Nat)
    (h : ∀ j ∈ s.jobs, j.jobId ≠ jobId) :
    set_running s jobId n1 = (false, s) ∧
    set_completed s jobId res n2 = (false, s) ∧
    set_failed s jobId err n3 = (false, s) ∧
    set_cancelled s jobId reason n4 = (false, s) ∧
    request_cancel s jobId reason2 n5 = (false, s) ∧
    is_cancel_requested s jobId = false := by
  have hmk : ∀ (af : List Status), ∀ j ∈ s.jobs, ¬ rowMatches jobId af j :=
    fun _ j hj hm => h j hj hm.1
  refine ⟨setStatus_no_match s jobId Status.running none none none
      [Status.queued] n1 (hmk _),
    setStatus_no_match s jobId Status.completed (some res) none (some false)
      [Status.running] n2 (hmk _),
    setStatus_no_match s jobId Status.failed none (some err) (some false)
      [Status.running] n3 (hmk _),
    setStatus_no_match s jobId Status.cancelled none (some reason) (some true)
      [Status.queued, Status.running] n4 (hmk _),
    request_cancel_no_match s jobId reason2 n5 (fun j hj hm => h j hj hm.1), ?_⟩
  have hfind : (s.jobs.find? fun j => decide (j.jobId = jobId)) = none :=
    List.find?_eq_none.2 fun j hj => by simpa using h j hj
  simp [is_cancel_requested, get_job, hfind]

theorem missing_job_noop_witness :
    (∀ j ∈ storeDone.jobs, j.jobId ≠ 5) ∧
    (set_running storeDone 5 1 = (false, storeDone) ∧
     set_completed storeDone 5 "x" 2 = (false, storeDone) ∧
     set_failed storeDone 5 "e" 3 = (false, storeDone) ∧
     set_cancelled storeDone 5 "c" 4 = (false, storeDone) ∧
     request_cancel storeDone 5 "c2" 5 = (false, storeDone) ∧
     is_cancel_requested storeDone 5 = false) :=
  ⟨by decide, missing_job_noop storeDone 5 "x" "e" "c" "c2" 1 2 3 4 5 (by decide)⟩

/-- C5: `request_cancel` returns `true` exactly when the job's row is
`running`; the update maps only matching rows, a matching row keeps its
status, gets `cancel_requested = true`, and its error text is filled with
the reason only when it was null (an existing error text is kept); a
non-matching row is untouched. -/
theorem request_cancel_spec (s : JobStore) (jobId : Nat) (reason : String) (now : Nat) :
    ((request_cancel s jobId reason now).1 = true ↔
      ∃ j ∈ s.jobs, j.jobId = jobId ∧ j.status = Status.running) ∧
    ((request_cancel s jobId reason now).2.jobs = s.jobs.map fun j =>
      if j.jobId = jobId ∧ j.status = Status.running then requestCancelRow reason now j
      else j) ∧
    (∀ j : Job, ¬ (j.jobId = jobId ∧ j.status = Status.running) →
      (if j.jobId = jobId ∧ j.status = Status.running then requestCancelRow reason now j
       else j) = j) ∧
    (∀ j : Job, (requestCancelRow reason now j).status = j.status) ∧
    (∀ j : Job, (requestCancelRow reason now j).cancelRequested = true) ∧
    (∀ j : Job, j.error = none → (requestCancelRow reason now j).error = some reason) ∧
    (∀ j : Job, ∀ e, j.error = some e → (requestCancelRow reason now j).error = some e) := by
  refine ⟨by simp [request_cancel], rfl, fun j hm => if_neg hm,
    fun j => rfl, fun j => rfl, ?_, ?_⟩
  · intro j he
    simp [requestCancelRow, he]
  · intro j e he
    simp [requestCancelRow, he]

theorem request_cancel_spec_witness :
    (((request_cancel storeRunning 0 "why" 9).1 = true ↔
      ∃ j ∈ storeRunning.jobs, j.jobId = 0 ∧ j.status = Status.running) ∧
    ((request_cancel storeRunning 0 "why" 9).2.jobs = storeRunning.jobs.map fun j =>
      if j.jobId = 0 ∧ j.status = Status.running then requestCancelRow "why" 9 j
      else j) ∧
    (∀ j : Job, ¬ (j.jobId = 0 ∧ j.status = Status.running) →
      (if j.jobId = 0 ∧ j.status = Status.running then requestCancelRow "why" 9 j
       else j) = j) ∧
    (∀ j : Job, (requestCancelRow "why" 9 j).status = j.status) ∧
    (∀ j : Job, (requestCancelRow "why" 9 j).cancelRequested = true) ∧
    (∀ j : Job, j.error = none → (requestCancelRow "why" 9 j).error = some "why") ∧
    (∀ j : Job, ∀ e, j.error = some e → (requestCancelRow "why" 9 j).error = some e)) :=
  request_cancel_spec storeRunning 0 "why" 9

/-- An operation sequence that creates a job, starts it, and requests its
cancellation: the row then has `cancel_requested = true`. -/
def stickyOps : List Op :=
  [Op.create "k" "r" 0, Op.setRunning 0 1, Op.requestCancel 0 "stop" 2]

/-- C1 is false as stated: after `create_job`, `set_running`,
`request_cancel` the row has `cancel_requested = true`, and the subsequent
`set_completed` (which writes `cancel_requested = 0`) resets it to
`false`. -/
theorem cancel_sticky_counterexample :
    (get_job (run stickyOps) 0).map Job.cancelRequested = some true ∧
    (get_job (run (stickyOps ++ [Op.setCompleted 0 "res" 3])) 0).map
      Job.cancelRequested = some false :=
  ⟨rfl, rfl⟩

/-- C1 (amended): `cancel_requested` is sticky under `set_running`,
`set_cancelled` and `request_cancel`, and under any of the five operations
that does not take effect on the row; the only way it drops back to `false`
is a `set_completed` or `set_failed` on that job that takes effect, which
requires the row to be `running`. Rows are keyed by the PRIMARY KEY
`job_id`, hence the no-duplicate hypothesis. -/
theorem cancel_sticky_amended (s : JobStore) (op : Op) (hop : op.isStatusOp = true)
    (hN : (s.jobs.map Job.jobId).Nodup) (j : Job) (hj : j ∈ s.jobs)
    (hc : j.cancelRequested = true) (j2 : Job) (hj2 : j2 ∈ (applyOp s op).jobs)
    (hid : j2.jobId = j.jobId) :
    j2.cancelRequested = true ∨
      (j.status = Status.running ∧
        ((∃ r n, op = Op.setCompleted j.jobId r n) ∨
         (∃ e n, op = Op.setFailed j.jobId e n))) := by
  cases op with
  | create kind request now => simp [Op.isStatusOp] at hop
  | clear statuses => simp [Op.isStatusOp] at hop
  | setRunning jid now =>
    simp only [applyOp, set_running, setStatus] at hj2
    rcases List.mem_map.1 hj2 with ⟨j0, hj0, hF⟩
    have hid0 : j0.jobId = j.jobId := by
      rw [← hid, ← hF]
      by_cases hm : rowMatches jid [Status.queued] j0 <;> simp [hm, setStatusRow]
    have hj0j : j0 = j := List.inj_on_of_nodup_map hN hj0 hj hid0
    subst hj0j
    left
    rw [← hF]
    by_cases hm : rowMatches jid [Status.queued] j0 <;> simp [hm, setStatusRow, hc]
  | setCompleted jid r now =>
    simp only [applyOp, set_completed, setStatus] at hj2
    rcases List.mem_map.1 hj2 with ⟨j0, hj0, hF⟩
    have hid0 : j0.jobId = j.jobId := by
      rw [← hid, ← hF]
      by_cases hm : rowMatches jid [Status.running] j0 <;> simp [hm, setStatusRow]
    have hj0j : j0 = j := List.inj_on_of_nodup_map hN hj0 hj hid0
    subst hj0j
    by_cases hm : rowMatches jid [Status.running] j0
    · right
      rcases hm with ⟨hmid, hmm⟩
      have hrun : j0.status = Status.running := by
        rcases hmm with h0 | h1
        · exact absurd h0 (by simp)
        · simpa using h1
      exact ⟨hrun, Or.inl ⟨r, now, by rw [hmid]⟩⟩
    · left
      rw [← hF, if_neg hm]
      exact hc
  | setFailed jid e now =>
    simp only [applyOp, set_failed, setStatus] at hj2
    rcases List.mem_map.1 hj2 with ⟨j0, hj0, hF⟩
    have hid0 : j0.jobId = j.jobId := by
      rw [← hid, ← hF]
      by_cases hm : rowMatches jid [Status.running] j0 <;> simp [hm, setStatusRow]
    have hj0j : j0 = j := List.inj_on_of_nodup_map hN hj0 hj hid0
    subst hj0j
    by_cases hm : rowMatches jid [Status.running] j0
    · right
      rcases hm with ⟨hmid, hmm⟩
      have hrun : j0.status = Status.running := by
        rcases hmm with h0 | h1
        · exact absurd h0 (by simp)
        · simpa using h1
      exact ⟨hrun, Or.inr ⟨e, now, by rw [hmid]⟩⟩
    · left
      rw [← hF, if_neg hm]
      exact hc
  | setCancelled jid reason now =>
    simp only [applyOp, set_cancelled, setStatus] at hj2
    rcases List.mem_map.1 hj2 with ⟨j0, hj0, hF⟩
    have hid0 : j0.jobId = j.jobId := by
      rw [← hid, ← hF]
      by_cases hm : rowMatches jid [Status.queued, Status.running] j0 <;>
        simp [hm, setStatusRow]
    have hj0j : j0 = j := List.inj_on_of_nodup_map hN hj0 hj hid0
    subst hj0j
    left
    rw [← hF]
    by_cases hm : rowMatches jid [Status.queued, Status.running] j0 <;>
      simp [hm, setStatusRow, hc]
  | requestCancel jid reason now =>
    simp only [applyOp, request_cancel] at hj2
    rcases List.mem_map.1 hj2 with ⟨j0, hj0, hF⟩
    have hid0 : j0.jobId = j.jobId := by
      rw [← hid, ← hF]
      by_cases hm : j0.jobId = jid ∧ j0.status = Status.running <;>
        simp [hm, requestCancelRow]
    have hj0j : j0 = j := List.inj_on_of_nodup_map hN hj0 hj hid0
    subst hj0j
    left
    rw [← hF]
    by_cases hm : j0.jobId = jid ∧ j0.status = Status.running <;>
      simp [hm, requestCancelRow, hc]

/-- A running row whose cancellation has been requested. -/
def jobRunningCR : Job :=
  { jobId := 0, kind := "k", status := Status.running, cancelRequested := true,
    createdAt := 0, updatedAt := 2, request := "r", result := none,
    error := some "stop" }

/-- A one-row store whose running job has `cancel_requested = true`. -/
def storeRunningCR : JobStore := { jobs := [jobRunningCR], nextId := 1 }

theorem cancel_sticky_amended_witness :
    (Op.setRunning 0 5).isStatusOp = true ∧
    (storeRunningCR.jobs.map Job.jobId).Nodup ∧
    jobRunningCR ∈ storeRunningCR.jobs ∧
    jobRunningCR.cancelRequested = true ∧
    jobRunningCR ∈ (applyOp storeRunningCR (Op.setRunning 0 5)).jobs ∧
    (jobRunningCR.cancelRequested = true ∨
      (jobRunningCR.status = Status.running ∧
        ((∃ r n, Op.setRunning 0 5 = Op.setCompleted jobRunningCR.jobId r n) ∨
         (∃ e n, Op.setRunning 0 5 = Op.setFailed jobRunningCR.jobId e n)))) :=
  ⟨by decide, by decide, by decide, by decide, by decide,
    cancel_sticky_amended storeRunningCR (Op.setRunning 0 5) (by decide) (by decide)
      jobRunningCR (by decide) (by decide) jobRunningCR (by decide) (by decide)⟩

/-- Row-level invariant of C3: a result payload is present exactly on
completed rows. -/
def resultInv (s : JobStore) : Prop :=
  ∀ j ∈ s.jobs, (j.result ≠ none ↔ j.status = Status.completed)

lemma resultInv_applyOp (s : JobStore) (op : Op) (h : resultInv s) :
    resultInv (applyOp s op) := by
  cases op with
  | create kind request now =>
    intro j hj
    simp only [applyOp, create_job] at hj
    rcases List.mem_append.1 hj with hl | hr
    · exact h j hl
    · rcases List.mem_singleton.1 hr with rfl
      simp
  | setRunning jid now =>
    intro j hj
    simp only [applyOp, set_running, setStatus] at hj
    rcases List.mem_map.1 hj with ⟨j0, hj0, rfl⟩
    by_cases hm : rowMatches jid [Status.queued] j0
    · simp [hm, setStatusRow]
    · simpa [hm] using h j0 hj0
  | setCompleted jid r now =>
    intro j hj
    simp only [applyOp, set_completed, setStatus] at hj
    rcases List.mem_map.1 hj with ⟨j0, hj0, rfl⟩
    by_cases hm : rowMatches jid [Status.running] j0
    · simp [hm, setStatusRow]
    · simpa [hm] using h j0 hj0
  | setFailed jid e now =>
    intro j hj
    simp only [applyOp, set_failed, setStatus] at hj
    rcases List.mem_map.1 hj with ⟨j0, hj0, rfl⟩
    by_cases hm : rowMatches jid [Status.running] j0
    · simp [hm, setStatusRow]
    · simpa [hm] using h j0 hj0
  | setCancelled jid reason now =>
    intro j hj
    simp only [applyOp, set_cancelled, setStatus] at hj
    rcases List.mem_map.1 hj with ⟨j0, hj0, rfl⟩
    by_cases hm : rowMatches jid [Status.queued, Status.running] j0
    · simp [hm, setStatusRow]
    · simpa [hm] using h j0 hj0
  | requestCancel jid reason now =>
    intro j hj
    simp only [applyOp, request_cancel] at hj
    rcases List.mem_map.1 hj with ⟨j0, hj0, rfl⟩
    by_cases hm : j0.jobId = jid ∧ j0.status = Status.running
    · simpa [hm, requestCancelRow] using h j0 hj0
    · simpa [hm] using h j0 hj0
  | clear statuses =>
    by_cases hs : statuses = []
    · simpa [applyOp, clear_jobs, hs] using h
    · intro j hj
      simp only [applyOp, clear_jobs, if_neg hs] at hj
      exact h j (List.mem_of_mem_filter hj)

/-- C3: in every store state reachable by a sequence of store operations
from a fresh store, a row's `result` is non-null exactly when its status is
`completed`. -/
theorem result_iff_completed (ops : List Op) (j : Job) (hj : j ∈ (run ops).jobs) :
    j.result ≠ none ↔ j.status = Status.completed := by
  have hstep : ∀ (l : List Op) (s : JobStore), resultInv s →
      resultInv (l.foldl applyOp s) := by
    intro l
    induction l with
    | nil => exact fun s hs => hs
    | cons op rest ih => exact fun s hs => ih _ (resultInv_applyOp s op hs)
  have hbase : resultInv emptyStore := by
    intro j hj
    simp [emptyStore] at hj
  exact hstep ops emptyStore hbase j hj

/-- The run that produces the completed row `jobDone`. -/
def resultOps : List Op :=
  [Op.create "k" "r" 0, Op.setRunning 0 1, Op.setCompleted 0 "res" 2]

theorem result_iff_completed_witness :
    jobDone ∈ (run resultOps).jobs ∧
    (jobDone.result ≠ none ↔ jobDone.status = Status.completed) :=
  ⟨by decide, result_iff_completed resultOps jobDone (by decide)⟩

/-- C4: once the execution wrapper has moved the job to `running` and the
pre-work cancellation check is clear, every outcome of the work unit is
converted into exactly one store transition: a cancellation-signal
exception into `set_cancelled` with its message, any other exception into
`set_failed` with its description, and a normal return into
`set_completed` unless the final cancellation re-check fires, in which case
`set_cancelled`. `wrapped` is a total function into `JobStore`, so no work
unit exception propagates out of it. -/
theorem wrapper_converts_outcomes (s : JobStore) (jobId : Nat) (ca : Bool)
    (outcome : WorkOutcome) (nR nE : Nat)
    (hrun : (set_running s jobId nR).1 = true)
    (hnc : is_cancel_requested (set_running s jobId nR).2 jobId = false) :
    (∀ msg, outcome = WorkOutcome.raisedCancelled msg →
      wrapped s jobId false ca outcome nR nE
        = (set_cancelled (set_running s jobId nR).2 jobId msg nE).2) ∧
    (∀ msg, outcome = WorkOutcome.raisedError msg →
      wrapped s jobId false ca outcome nR nE
        = (set_failed (set_running s jobId nR).2 jobId msg nE).2) ∧
    (∀ res, outcome = WorkOutcome.returned res → ca = true →
      wrapped s jobId false ca outcome nR nE
        = (set_cancelled (set_running s jobId nR).2 jobId
            "Cancelled by user during execution." nE).2) ∧
    (∀ res, outcome = WorkOutcome.returned res → ca = false →
      wrapped s jobId false ca outcome nR nE
        = (set_completed (set_running s jobId nR).2 jobId res nE).2) := by
  refine ⟨fun msg hx => ?_, fun msg hx => ?_,
    fun res hx hca => ?_, fun res hx hca => ?_⟩
  · subst hx; simp [wrapped, hrun, hnc]
  · subst hx; simp [wrapped, hrun, hnc]
  · subst hx; subst hca; simp [wrapped, hrun, hnc]
  · subst hx; subst hca; simp [wrapped, hrun, hnc]

theorem wrapper_converts_outcomes_witness :
    (set_running storeQueued 0 1).1 = true ∧
    is_cancel_requested (set_running storeQueued 0 1).2 0 = false ∧
    wrapped storeQueued 0 false false (WorkOutcome.returned "ok") 1 2
      = (set_completed (set_running storeQueued 0 1).2 0 "ok" 2).2 :=
  ⟨by decide, by decide,
    (wrapper_converts_outcomes storeQueued 0 false (WorkOutcome.returned "ok") 1 2
      (by decide) (by decide)).2.2.2 "ok" rfl rfl⟩

/-- C8 is false as stated: with `limit = 0` the store clamps the limit to
`min(max(0, 1), 1000) = 1`, so a one-row store yields one job — more than
the given limit. -/
theorem list_jobs_limit_counterexample :
    (list_jobs storeQueued 0 none).length = 1 ∧
    ¬ (((list_jobs storeQueued 0 none).length : Int) ≤ 0) := by
  refine ⟨by decide, by decide⟩

/-- C8 (amended): `list_jobs` returns only rows of the store; with a
non-empty status filter, only rows whose status is in the filter; the
result is ordered by `updated_at` descending; its length never exceeds the
clamped limit `min(max(limit, 1), 1000)` — in particular it never exceeds
`limit` itself whenever `limit ≥ 1`; and with no filter every row is
returned as long as the store fits under the clamped limit. -/
theorem list_jobs_spec (s : JobStore) (limit : Int) (statuses : Option (List Status)) :
    (∀ j ∈ list_jobs s limit statuses, j ∈ s.jobs) ∧
    (∀ l, statuses = some l → l ≠ [] →
      ∀ j ∈ list_jobs s limit statuses, j.status ∈ l) ∧
    List.Sorted updatedDesc (list_jobs s limit statuses) ∧
    (list_jobs s limit statuses).length ≤ (min (max limit 1) 1000).toNat ∧
    (1 ≤ limit → ((list_jobs s limit statuses).length : Int) ≤ limit) ∧
    (statuses = none → s.jobs.length ≤ (min (max limit 1) 1000).toNat →
      ∀ j ∈ s.jobs, j ∈ list_jobs s limit statuses) := by
  have hdef : list_jobs s limit statuses
      = (List.insertionSort updatedDesc (match statuses with
          | none => s.jobs
          | some l => if l = [] then s.jobs
            else s.jobs.filter fun j => decide (j.status ∈ l))).take
          (min (max limit 1) 1000).toNat := rfl
  have hmemF : ∀ j ∈ list_jobs s limit statuses,
      j ∈ (match statuses with
        | none => s.jobs
        | some l => if l = [] then s.jobs
          else s.jobs.filter fun j => decide (j.status ∈ l)) := by
    intro j hj
    rw [hdef] at hj
    exact (List.perm_insertionSort updatedDesc _).subset (List.mem_of_mem_take hj)
  have hlen : (list_jobs s limit statuses).length ≤ (min (max limit 1) 1000).toNat := by
    rw [hdef]
    exact List.length_take_le _ _
  refine ⟨?_, ?_, ?_, hlen, ?_, ?_⟩
  · intro j hj
    cases statuses with
    | none => exact hmemF j hj
    | some l =>
      by_cases hl : l = []
      · have h1 : j ∈ (if l = [] then s.jobs
            else s.jobs.filter fun j => decide (j.status ∈ l)) := hmemF j hj
        rw [if_pos hl] at h1
        exact h1
      · have h1 : j ∈ (if l = [] then s.jobs
            else s.jobs.filter fun j => decide (j.status ∈ l)) := hmemF j hj
        rw [if_neg hl] at h1
        exact (List.mem_filter.1 h1).1
  · intro l hst hl j hj
    subst hst
    have h1 : j ∈ (if l = [] then s.jobs
        else s.jobs.filter fun j => decide (j.status ∈ l)) := hmemF j hj
    rw [if_neg hl] at h1
    simpa using (List.mem_filter.1 h1).2
  · rw [hdef]
    exact List.Pairwise.sublist (List.take_sublist _ _)
      (List.sorted_insertionSort updatedDesc _)
  · intro hlim
    have hmax : max limit 1 = limit := max_eq_left hlim
    have h1 : min (max limit 1) 1000 ≤ limit := by
      rw [hmax]
      exact min_le_left _ _
    have h0 : (0 : Int) ≤ min (max limit 1) 1000 := by
      refine le_min ?_ (by norm_num)
      exact le_trans (by norm_num) (le_max_right limit 1)
    calc ((list_jobs s limit statuses).length : Int)
        ≤ ((min (max limit 1) 1000).toNat : Int) := by exact_mod_cast hlen
      _ = min (max limit 1) 1000 := Int.toNat_of_nonneg h0
      _ ≤ limit := h1
  · intro hnone hfit j hj
    subst hnone
    rw [hdef]
    have hperm := List.perm_insertionSort updatedDesc s.jobs
    have hlen2 : (List.insertionSort updatedDesc s.jobs).length
        ≤ (min (max limit 1) 1000).toNat := by
      rw [hperm.length_eq]
      exact hfit
    rw [List.take_of_length_le hlen2]
    exact hperm.symm.subset hj

theorem list_jobs_spec_witness :
    (∀ j ∈ list_jobs storeDone 10 (some [Status.completed]), j ∈ storeDone.jobs) ∧
    List.Sorted updatedDesc (list_jobs storeDone 10 (some [Status.completed])) ∧
    (list_jobs storeDone 10 (some [Status.completed])).length
      ≤ (min (max (10 : Int) 1) 1000).toNat :=
  ⟨(list_jobs_spec storeDone 10 (some [Status.completed])).1,
   (list_jobs_spec storeDone 10 (some [Status.completed])).2.2.1,
   (list_jobs_spec storeDone 10 (some [Status.completed])).2.2.2.1⟩

lemma length_filter_partition {α : Type} (p : α → Bool) (l : List α) :
    (l.filter p).length + (l.filter fun a => !(p a)).length = l.length := by
  induction l with
  | nil => rfl
  | cons x xs ih =>
    cases hpx : p x with
    | true =>
      simp only [List.filter_cons, hpx]
      simp
      omega
    | false =>
      simp only [List.filter_cons, hpx]
      simp
      omega

/-- C9: `clear_jobs` on an empty status set fails with an error (the store
is not returned, hence not modified); on a non-empty set it deletes
exactly the rows whose status is in the set, keeps every other row, and
returns the number of deleted rows. -/
theorem clear_jobs_spec (s : JobStore) (statuses : List Status) :
    (statuses = [] → clear_jobs s statuses = Except.error "statuses must not be empty") ∧
    (∀ n s2, clear_jobs s statuses = Except.ok (n, s2) →
      statuses ≠ [] ∧
      n = (s.jobs.filter fun j => decide (j.status ∈ statuses)).length ∧
      s2.jobs = s.jobs.filter (fun j => decide (j.status ∉ statuses)) ∧
      (∀ j ∈ s.jobs, j.status ∉ statuses → j ∈ s2.jobs) ∧
      (∀ j ∈ s2.jobs, j ∈ s.jobs ∧ j.status ∉ statuses) ∧
      n + s2.jobs.length = s.jobs.length ∧
      s2.nextId = s.nextId) := by
  constructor
  · intro hs
    simp [clear_jobs, hs]
  · intro n s2 hok
    by_cases hs : statuses = []
    · simp [clear_jobs, hs] at hok
    · rw [clear_jobs, if_neg hs, Except.ok.injEq, Prod.mk.injEq] at hok
      rcases hok with ⟨rfl, rfl⟩
      refine ⟨hs, rfl, rfl, ?_, ?_, ?_, rfl⟩
      · intro j hj hnot
        exact List.mem_filter.2 ⟨hj, by simpa using hnot⟩
      · intro j hj
        have h1 := List.mem_filter.1 hj
        exact ⟨h1.1, by simpa using h1.2⟩
      · have hpart := length_filter_partition
          (fun j => decide (j.status ∈ statuses)) s.jobs
        simpa [decide_not] using hpart

theorem clear_jobs_spec_witness :
    (clear_jobs storeDone [] = Except.error "statuses must not be empty") ∧
    ((1 : Nat) + ({ jobs := ([] : List Job), nextId := 1 } : JobStore).jobs.length
      = storeDone.jobs.length) :=
  ⟨(clear_jobs_spec storeDone []).1 rfl,
   ((clear_jobs_spec storeDone [Status.completed]).2 1
      { jobs := [], nextId := 1 } (by rfl)).2.2.2.2.2.1⟩
